import Mathlib

/-!
# Verification of the water-balloon trajectory solver

The repository is a water-balloon launcher simulator: a React frontend
(`frontend/src`) that displays trajectories, and a Python backend exposing a
`/api/calculate` endpoint that solves the aiming problem (environment model,
launcher energy model, trajectory integrator, aim solver, solution assembler).
The backend sources are not part of the repository snapshot — only the
frontend, the API types (`api.ts`) and the documentation are — so the solver
core below is modelled from the specification and made fully executable, while
the display components (`Charts.tsx`, `TelemetryPanel`) are embedded directly
from their TypeScript sources.

The executable model uses fixed-point arithmetic over `Int` (scale `10^6`,
micro-units) so that every solve can be evaluated inside proofs on concrete
requests.  All spec figures that the spec itself declares configurable
(integration step, caps, tolerances, search resolution) are fixed here as
named constants.
-/

/-! ## Fixed-point arithmetic over Int, scale 10^6 -/

/-- Fixed-point scale: one unit is `10^-6` of the physical unit. -/
def scaleF : Int := 1000000

/-- Fixed-point multiplication. -/
def fmul (a b : Int) : Int := (a * b) / scaleF

/-- Fixed-point division. -/
def fdiv (a b : Int) : Int := (a * scaleF) / b

/-- Newton iteration for integer square roots, with explicit fuel so that it
reduces by plain iota steps. -/
def sqrtIter (n : Nat) (fuel : Nat) : Nat → Nat :=
  Nat.rec (motive := fun _ => Nat → Nat)
    (fun x => x)
    (fun _ ih x =>
      let x2 := (x + n / x) / 2
      if x2 < x then ih x2 else x)
    fuel

/-- Seed for the Newton iteration: a power of two at or above the square root. -/
def sqrtSeed (n : Nat) : Nat :=
  if n ≤ 281474976710656 then 16777216
  else if n ≤ 79228162514264337593543950336 then 281474976710656
  else n / 2 + 1

/-- Integer square root (monotone Newton descent from a seed above the root). -/
def natSqrt (n : Nat) : Nat :=
  if n ≤ 1 then n else sqrtIter n 60 (sqrtSeed n)

/-- Square root of a fixed-point value, as fixed point:
`sqrt(x / S) * S = sqrt(x * S)`. -/
def sqrtFx (x : Int) : Int := Int.ofNat (natSqrt (x * scaleF).toNat)

def piFx : Int := 3141593
def halfPiFx : Int := 1570796
def twoPiFx : Int := 6283186

/-- Degrees to radians in fixed point. -/
def degToRad (d : Int) : Int := (d * piFx) / (180 * scaleF)

/-- Taylor polynomial for sin on `[-pi/2, pi/2]` (fixed point, radians). -/
def sinCore (x : Int) : Int :=
  let x2 := fmul x x
  let x3 := fmul x2 x
  let x5 := fmul x3 x2
  let x7 := fmul x5 x2
  x - x3 / 6 + x5 / 120 - x7 / 5040

/-- Fixed-point sine of an angle in radians, by range reduction into
`[-pi, pi)` and quadrant folding onto the Taylor core. -/
def sinFx (x : Int) : Int :=
  let r := ((x + piFx) % twoPiFx) - piFx
  if r > halfPiFx then sinCore (piFx - r)
  else if r < -halfPiFx then -sinCore (r + piFx)
  else sinCore r

/-- Fixed-point cosine, via the sine shift. -/
def cosFx (x : Int) : Int := sinFx (x + halfPiFx)

/-- Rational core approximation of atan on `[-1, 1]`, radians (fixed point). -/
def atanCore (t : Int) : Int := fdiv t (scaleF + fmul 280000 (fmul t t))

/-- Radians to degrees in fixed point. -/
def radToDeg (r : Int) : Int := (r * 180 * scaleF) / piFx

/-- Four-quadrant arctangent in degrees (fixed point), result in `[0, 360)`,
measured like the spec's wind direction: `0 = +X axis`, `90 = +Z axis`. -/
def atan2Fx (z x : Int) : Int :=
  let az := if z < 0 then -z else z
  let ax := if x < 0 then -x else x
  let base :=
    if az ≤ ax then
      if ax = 0 then 0 else radToDeg (atanCore (fdiv az ax))
    else radToDeg (halfPiFx - atanCore (fdiv ax az))
  if 0 ≤ x ∧ 0 ≤ z then base
  else if x < 0 ∧ 0 ≤ z then 180 * scaleF - base
  else if x < 0 ∧ z < 0 then 180 * scaleF + base
  else if base = 0 then 0 else 360 * scaleF - base

/-! ## Vectors and physical constants -/

/-- A 3-vector of fixed-point coordinates (x right, y up, z lateral). -/
structure V3 where
  x : Int
  y : Int
  z : Int
deriving DecidableEq

def vadd (a b : V3) : V3 := ⟨a.x + b.x, a.y + b.y, a.z + b.z⟩

def vsub (a b : V3) : V3 := ⟨a.x - b.x, a.y - b.y, a.z - b.z⟩

def vsmul (c : Int) (a : V3) : V3 := ⟨fmul c a.x, fmul c a.y, fmul c a.z⟩

def vdivN (a : V3) (n : Int) : V3 := ⟨a.x / n, a.y / n, a.z / n⟩

/-- Euclidean norm of a fixed-point vector. -/
def vnorm (a : V3) : Int := Int.ofNat (natSqrt (a.x * a.x + a.y * a.y + a.z * a.z).toNat)

/-- Modelled from the spec: fixed physical constants of the projectile and the
launcher (backend sources absent from the snapshot).  Gravity 9.81 m/s²,
water-balloon mass 0.15 kg, cross-sectional area 0.007854 m² (5 cm radius),
mechanical pullback travel limit 0.5 m. -/
def gravFx : Int := 9810000

def massFx : Int := 150000

def arefFx : Int := 7854

def pullbackMaxFx : Int := 500000

/-- Landing tolerance (0.1 m), the spec's configurable impact-position
tolerance. -/
def tolFx : Int := 100000

/-- Fixed integration step (0.1 s), the spec's configurable step size. -/
def dtFx : Int := 100000

def halfDtFx : Int := 50000

/-- Hard cap on integration steps (300 steps of 0.1 s = 30 s simulated). -/
def maxSteps : Nat := 300

/-! ## EnvironmentModel -/

/-- Modelled from the spec (§4.1, backend sources absent): the environment as
consumed by the integrator — a constant wind velocity vector and the lumped
drag factor `k_drag = 0.5 * air_density * drag_coefficient * A_ref / m`. -/
structure Phys where
  wind : V3
  kdrag : Int
deriving DecidableEq

/-- Modelled from the spec (§4.2): acceleration under gravity and quadratic
drag on the velocity relative to the air mass,
`dv/dt = g_vec - k_drag * |v_rel| * v_rel`. -/
def accel (ph : Phys) (v : V3) : V3 :=
  let vr := vsub v ph.wind
  let sp := vnorm vr
  ⟨-(fmul ph.kdrag (fmul sp vr.x)),
   -gravFx - fmul ph.kdrag (fmul sp vr.y),
   -(fmul ph.kdrag (fmul sp vr.z))⟩

/-! ## TrajectoryIntegrator -/

/-- Integration state: simulated time, position, velocity (all fixed point). -/
structure RState where
  t : Int
  p : V3
  v : V3
deriving DecidableEq

/-- Modelled from the spec (§4.2): one fixed-step 4th-order Runge-Kutta step
of `dp/dt = v`, `dv/dt = accel`. -/
def rk4 (ph : Phys) (s : RState) : RState :=
  let a1 := accel ph s.v
  let v2 := vadd s.v (vsmul halfDtFx a1)
  let a2 := accel ph v2
  let v3 := vadd s.v (vsmul halfDtFx a2)
  let a3 := accel ph v3
  let v4 := vadd s.v (vsmul dtFx a3)
  let a4 := accel ph v4
  let dp := vdivN (vsmul dtFx (vadd (vadd s.v v2) (vadd (vadd v2 v3) (vadd v3 v4)))) 6
  let dv := vdivN (vsmul dtFx (vadd (vadd a1 a2) (vadd (vadd a2 a3) (vadd a3 a4)))) 6
  ⟨s.t + dtFx, vadd s.p dp, vadd s.v dv⟩

/-- A trajectory sample, mirroring `TrajectoryPoint` of `api.ts`. -/
structure TP where
  x : Int
  y : Int
  z : Int
  vx : Int
  vy : Int
  vz : Int
  time : Int
deriving DecidableEq

def toTP (s : RState) : TP := ⟨s.p.x, s.p.y, s.p.z, s.v.x, s.v.y, s.v.z, s.t⟩

/-- Result of one integration run: either the hard cap was exceeded
(IntegrationDivergence) or the projectile landed with a sampled trajectory and
an interpolated impact point. -/
inductive IntegOut where
  | diverged
  | landed (tr : List TP) (imp : TP)
deriving DecidableEq

/-- Termination test (spec §4.2/§4.3): the step has fallen below the ground,
or is descending at or below the termination level `lvl` (the target's height
for elevated targets, else 0). -/
def stopCond (lvl : Int) (s : RState) : Bool :=
  decide (s.p.y < 0) || (decide (s.v.y ≤ 0) && decide (s.p.y ≤ lvl))

/-- Simulated-time cap (30 s), part of the spec's hard cap. -/
def timeCapFx : Int := 30000000

/-- Runaway-speed bound, squared: (400 m/s)². -/
def speedCapSq : Int := 160000000000000000

/-- Runaway-position bound, squared: (50 km)². -/
def posCapSq : Int := 2500000000000000000000

/-- Modelled from the spec (§4.2): guard for pathological states (runaway
speed or position, simulated-time cap); triggering it is a fatal integration
failure for this trial, never a silent truncation. -/
def runawayCond (s : RState) : Bool :=
  decide (timeCapFx < s.t) ||
  decide (speedCapSq < s.v.x * s.v.x + s.v.y * s.v.y + s.v.z * s.v.z) ||
  decide (posCapSq < s.p.x * s.p.x + s.p.y * s.p.y + s.p.z * s.p.z)

/-- Modelled from the spec (§4.2): the impact sample.  When the previous state
was at or above the termination level, interpolate linearly between the last
two samples down to exactly that level (never emitting a negative-height
point); otherwise (an elevated target the path never reached) the stopped
state itself is the final sample, clamped to the ground.  The impact time is
kept strictly after the previous sample's time. -/
def impactPt (lvl : Int) (s s2 : RState) : TP :=
  if lvl ≤ s.p.y then
    let den := s.p.y - s2.p.y
    let f := if den ≤ 0 then 0 else fdiv (s.p.y - lvl) den
    { x := s.p.x + fmul f (s2.p.x - s.p.x)
      y := lvl
      z := s.p.z + fmul f (s2.p.z - s.p.z)
      vx := s.v.x + fmul f (s2.v.x - s.v.x)
      vy := s.v.y + fmul f (s2.v.y - s.v.y)
      vz := s.v.z + fmul f (s2.v.z - s.v.z)
      time := s.t + max (fmul f dtFx) 1 }
  else
    { x := s2.p.x, y := max s2.p.y 0, z := s2.p.z
      vx := s2.v.x, vy := s2.v.y, vz := s2.v.z, time := s.t + dtFx }

/-- Modelled from the spec (§4.2): the integration loop.  `acc` holds the
samples emitted so far, newest first; one sample is emitted per step; fuel
exhaustion is the step-count hard cap. -/
def integLoop (ph : Phys) (lvl : Int) (fuel : Nat) : RState → List TP → IntegOut :=
  Nat.rec (motive := fun _ => RState → List TP → IntegOut)
    (fun _ _ => .diverged)
    (fun _ ih s acc =>
      let s2 := rk4 ph s
      if runawayCond s2 then .diverged
      else if stopCond lvl s2 then
        let imp := impactPt lvl s s2
        .landed (imp :: acc).reverse imp
      else ih s2 (toTP s2 :: acc))
    fuel

/-- Modelled from the spec (§2/§4.3): initial velocity
`v0 * (cos phi * cos psi, sin phi, cos phi * sin psi)` for elevation `phi` and
azimuth `psi` in fixed-point degrees. -/
def launchVel (v phi psi : Int) : V3 :=
  let pr := degToRad phi
  let sr := degToRad psi
  ⟨fmul v (fmul (cosFx pr) (cosFx sr)),
   fmul v (sinFx pr),
   fmul v (fmul (cosFx pr) (sinFx sr))⟩

/-- Launch state: the launcher sits at the origin at time 0. -/
def startState (v phi psi : Int) : RState := ⟨0, ⟨0, 0, 0⟩, launchVel v phi psi⟩

/-- Modelled from the spec (§4.2, backend sources absent): a full integration
run from launch to impact (or divergence), emitting the launch sample first. -/
def integrate (ph : Phys) (lvl : Int) (v phi psi : Int) : IntegOut :=
  let s0 := startState v phi psi
  integLoop ph lvl maxSteps s0 [toTP s0]

/-! ## AimSolver -/

/-- Solver context: environment, termination level, target, analytic azimuth. -/
structure Ctx where
  ph : Phys
  lvl : Int
  tx : Int
  ty : Int
  tz : Int
  psi : Int
deriving DecidableEq

/-- Modelled from the spec (§4.3): the convergence criterion — the impact
sample matches the target componentwise within the landing tolerance. -/
def hitB (c : Ctx) (p : TP) : Bool :=
  decide (|p.x - c.tx| ≤ tolFx) &&
  decide (|p.z - c.tz| ≤ tolFx) &&
  decide (|p.y - c.ty| ≤ tolFx)

/-- Horizontal distance from the origin (fixed point). -/
def horizDist (x z : Int) : Int := Int.ofNat (natSqrt (x * x + z * z).toNat)

/-- A successful trial: speed, elevation, the accepted trajectory, impact. -/
structure Found where
  v : Int
  phi : Int
  tr : List TP
  imp : TP
deriving DecidableEq

/-- Elevation search window, low end (42 degrees, near the max-range angle). -/
def angleLo : Int := 42000000

/-- Elevation search window, high end (88 degrees). -/
def angleHi : Int := 88000000

/-- Reachability pre-check slack (0.5 m). -/
def slackFx : Int := 500000

/-- One trial integration of the solver: candidate speed and elevation with
the context's analytic azimuth. -/
def evalCand (c : Ctx) (v phi : Int) : IntegOut := integrate c.ph c.lvl v phi c.psi

/-- Modelled from the spec (§4.3 step 4, backend sources absent): the
derivative-free elevation search at a fixed speed — bisection on the
descending branch of the range-vs-elevation curve, one integrator call per
trial, with an iteration budget.  Returns a trial only when it meets the
landing tolerance, together with the number of integrator calls made. -/
def bisect (c : Ctx) (v : Int) : Nat → Int → Int → Nat × Option Found
  | 0, _, _ => (0, none)
  | fuel + 1, lo, hi =>
    let mid := (lo + hi) / 2
    match evalCand c v mid with
    | .diverged => (1, none)
    | .landed tr imp =>
      if hitB c imp then (1, some ⟨v, mid, tr, imp⟩)
      else if horizDist c.tx c.tz < horizDist imp.x imp.z then
        let (n, r) := bisect c v fuel mid hi
        (n + 1, r)
      else
        let (n, r) := bisect c v fuel lo mid
        (n + 1, r)

/-- Modelled from the spec (§4.3 step 4): angle search at one candidate speed.
A pre-check integration near the max-range elevation rejects speeds that
cannot come within slack of the target distance (and a diverging trial is a
failed trial, excluded from the search); otherwise the bisection refines the
elevation within its budget. -/
def angleSearch (c : Ctx) (v : Int) : Nat × Option Found :=
  match evalCand c v angleLo with
  | .diverged => (1, none)
  | .landed tr imp =>
    if hitB c imp then (1, some ⟨v, angleLo, tr, imp⟩)
    else if horizDist imp.x imp.z + slackFx < horizDist c.tx c.tz then (1, none)
    else
      let (n, r) := bisect c v 16 angleLo angleHi
      (n + 1, r)

/-- Modelled from the spec (§4.3 step 4 and tie-break policy): scan the
candidate speeds in increasing order and accept the first speed whose angle
search meets the landing tolerance — the lowest-v0 preference.  Also counts
integrator calls. -/
def searchGo (c : Ctx) : List Int → Nat × Option Found
  | [] => (0, none)
  | v :: vs =>
    match angleSearch c v with
    | (n, some fd) => (n, some fd)
    | (n, none) =>
      let (m, r) := searchGo c vs
      (n + m, r)

/-- Speed-grid resolution (0.25 m/s). -/
def vstepFx : Int := 250000

/-! ## LauncherModel (fixed-point side) -/

/-- Modelled from the spec (§4.4, backend sources absent): the maximum launch
speed from energy conservation at the full mechanical pullback,
`v_max = sqrt(k / m) * pullback_max`. -/
def vmaxOf (k : Int) : Int := fmul (sqrtFx (fdiv k massFx)) pullbackMaxFx

/-- Modelled from the spec (§4.4): pullback from speed,
`pullback = v0 * sqrt(m / k)`. -/
def velocityToPullbackFx (k v : Int) : Int := fmul v (sqrtFx (fdiv massFx k))

/-- Modelled from the spec (§4.3 step 3): the closed-form no-drag lower bound
for the needed launch speed, `v^2 = g * (h + sqrt(D^2 + h^2))` for horizontal
distance `D` and height `h` — the search's starting guess. -/
def vLowGuess (tx ty tz : Int) : Int :=
  let h := max ty 0
  let d := horizDist tx tz
  sqrtFx (fmul gravFx (h + horizDist d h))

/-- Modelled from the spec (§4.3): the candidate speed ladder — from just
below the closed-form guess up to the achievable maximum, in grid steps. -/
def vGrid (tx ty tz k : Int) : List Int :=
  let vmax := vmaxOf k
  let vFirst := max vstepFx ((vLowGuess tx ty tz / vstepFx - 2) * vstepFx)
  let count := if vFirst ≤ vmax then ((vmax - vFirst) / vstepFx + 1).toNat else 0
  ((List.range count).map (fun i => vFirst + Int.ofNat i * vstepFx)).filter
    (fun u => decide (u ≤ vmax))

/-! ## Request, validation, response (SolutionAssembler) -/

/-- A solve request, mirroring `CalculationRequest` of `api.ts` with the
environment defaults applied (all numeric fields fixed point). -/
structure Req where
  tx : Int
  ty : Int
  tz : Int
  k : Int
  wind : Int
  wdir : Int
  rho : Int
  cd : Int
deriving DecidableEq

/-- Modelled from the spec (§7): the InvalidInput conditions — non-positive
spring constant, negative wind speed, non-positive air density, target at zero
horizontal distance from the origin. -/
def invalidB (r : Req) : Bool :=
  decide (r.k ≤ 0) || decide (r.wind < 0) || decide (r.rho ≤ 0) ||
  (decide (r.tx = 0) && decide (r.tz = 0))

/-- Modelled from the spec (§3/§4.1): the derived environment — wind vector
`wind_speed * (cos th, 0, sin th)` with `th` the wind direction in radians,
and the lumped drag factor. -/
def mkPhys (r : Req) : Phys :=
  let th := degToRad r.wdir
  { wind := ⟨fmul r.wind (cosFx th), 0, fmul r.wind (sinFx th)⟩
    kdrag := (fdiv (fmul (fmul r.rho r.cd) arefFx) massFx) / 2 }

/-- Solver context for a request: analytic azimuth from `atan2(z, x)`
(spec §4.3 step 1), termination level at the target height for elevated
targets. -/
def mkCtx (r : Req) : Ctx :=
  { ph := mkPhys r, lvl := max r.ty 0, tx := r.tx, ty := r.ty, tz := r.tz,
    psi := atan2Fx r.tz r.tx }

/-- Response status, mirroring the spec's §7 taxonomy at the response level
(IntegrationDivergence is a per-trial failure inside the search). -/
inductive Status where
  | success
  | invalidInput
  | unreachable
deriving DecidableEq

/-- A solve response, mirroring `CalculationResponse` of `api.ts` plus the
human-readable failure reason of spec §7. -/
structure Resp where
  launch_angle : Int
  azimuth_angle : Int
  velocity : Int
  pullback : Int
  trajectory : List TP
  status : Status
  reason : String

/-- The candidate speed ladder of a request. -/
def vGridOf (r : Req) : List Int := vGrid r.tx r.ty r.tz r.k

/-- Modelled from the spec (§4.3/§4.5/§7, backend sources absent): the full
solve with an integrator-call counter.  Invalid input is rejected before any
search; otherwise the search result is assembled into the response, with the
pullback back-computed from the accepted speed. -/
def solveC (r : Req) : Resp × Nat :=
  if invalidB r then
    (⟨0, 0, 0, 0, [], .invalidInput, "invalid input"⟩, 0)
  else
    match searchGo (mkCtx r) (vGridOf r) with
    | (n, some fd) =>
      (⟨fd.phi, (mkCtx r).psi, fd.v, velocityToPullbackFx r.k fd.v, fd.tr, .success, ""⟩, n)
    | (n, none) =>
      (⟨0, 0, 0, 0, [], .unreachable, "target unreachable"⟩, n)

/-- The response of a solve. -/
def solve (r : Req) : Resp := (solveC r).1

/-- The number of integrator calls a solve performs. -/
def trialsOf (r : Req) : Nat := (solveC r).2

/-- Final sample of a trajectory (zero point for an empty trajectory). -/
def lastPt (tr : List TP) : TP := (tr.getLast?).getD ⟨0, 0, 0, 0, 0, 0, 0⟩

/-! ## Concrete scenarios (fixed point: 10^6 units per meter) -/

/-- The spec's example scenario and the frontend's default control-panel
state: target (10, 0, 0), spring constant 100 N/m, no wind, air density
1.225 kg/m³, drag coefficient 0.47. -/
def req9 : Req := ⟨10000000, 0, 0, 100000000, 0, 0, 1225000, 470000⟩

def resp9 : Resp := solve req9

/-- The spec's example failure scenario: target (10000, 0, 0), spring
constant 10 N/m. -/
def req10000 : Req := ⟨10000000000, 0, 0, 10000000, 0, 0, 1225000, 470000⟩

/-- An elevated-target scenario: target (6, 2, 0), spring constant 100 N/m,
default environment. -/
def reqElev : Req := ⟨6000000, 2000000, 0, 100000000, 0, 0, 1225000, 470000⟩

def respElev : Resp := solve reqElev

/-- An invalid request: the example scenario with a negative spring constant. -/
def reqBad : Req := ⟨10000000, 0, 0, -5000000, 0, 0, 1225000, 470000⟩

/-- A pathological candidate speed (1000 m/s) whose trial integration
triggers the runaway guard at once. -/
def divergeV : Int := 1000000000

/-- A drag-free, wind-free solver context: under it the pathological speed
keeps its magnitude and trips the runaway-speed cap on the first step. -/
def ctxDiv : Ctx := ⟨⟨⟨0, 0, 0⟩, 0⟩, 0, 10000000, 0, 0, 0⟩

/-! ## Real-valued component contracts

`frontend/src/constants.ts` is absent from the snapshot; the two display
constants it exports are modelled with the same values as the fixed-point
model above. -/

/-- Modelled from the spec and `constants.ts` (absent): the projectile mass
(kg), as imported by `Charts.tsx` and `TelemetryPanel`. -/
noncomputable def WATER_BALLOON_MASS : ℝ := 0.15

/-- Modelled from the spec and `constants.ts` (absent): gravity (m/s²), as
imported by `Charts.tsx` and `TelemetryPanel`. -/
noncomputable def EARTH_GRAVITY : ℝ := 9.81

/-- Modelled from the spec (§4.1): the balloon's fixed cross-sectional
area (m²). -/
noncomputable def A_ref : ℝ := 0.007854

/-- Modelled from the spec (§4.4, backend sources absent): pullback distance
from launch speed by energy conservation,
`0.5 * k * pullback² = 0.5 * m * v0²`. -/
noncomputable def velocity_to_pullback (k v0 : ℝ) : ℝ :=
  v0 * Real.sqrt (WATER_BALLOON_MASS / k)

/-- Modelled from the spec (§4.4): launch speed recomputed from a pullback by
the forward energy formula. -/
noncomputable def pullback_to_velocity (k pullback : ℝ) : ℝ :=
  Real.sqrt (k * pullback ^ 2 / WATER_BALLOON_MASS)

/-- Modelled from the spec (§4.4): the maximum launch speed at the mechanical
pullback limit. -/
noncomputable def max_velocity (k pullback_max : ℝ) : ℝ :=
  pullback_max * Real.sqrt (k / WATER_BALLOON_MASS)

/-- Modelled from the spec (§3/§4.1, backend sources absent): the derived
wind vector `wind_speed * (cos th, 0, sin th)` with `th` the wind direction
converted to radians. -/
noncomputable def wind_vector (wind_speed wind_direction : ℝ) : ℝ × ℝ × ℝ :=
  (wind_speed * Real.cos (wind_direction * Real.pi / 180), 0,
   wind_speed * Real.sin (wind_direction * Real.pi / 180))

/-- Modelled from the spec (§4.1): the scalar drag factor
`k_drag = 0.5 * air_density * drag_coefficient * A_ref / m`. -/
noncomputable def drag_factor (air_density drag_coefficient : ℝ) : ℝ :=
  0.5 * air_density * drag_coefficient * A_ref / WATER_BALLOON_MASS

/-! ## Display components, embedded from the frontend sources -/

/-- A trajectory point as the frontend receives it (`api.ts`), real-valued. -/
structure TPr where
  x : ℝ
  y : ℝ
  z : ℝ
  vx : ℝ
  vy : ℝ
  vz : ℝ
  time : ℝ

/-- One derived chart row (`Charts.tsx` lines 19–34 / `TelemetryPanel`). -/
structure ChartRow where
  time : ℝ
  velocity : ℝ
  ke : ℝ
  pe : ℝ
  me : ℝ
  momentum : ℝ

/-- The per-point chart data of `Charts.tsx`: speed, kinetic energy,
potential energy, total mechanical energy, momentum. -/
noncomputable def mkChartRow (p : TPr) : ChartRow :=
  let v := Real.sqrt (p.vx ^ 2 + p.vy ^ 2 + p.vz ^ 2)
  let ke := 0.5 * WATER_BALLOON_MASS * v ^ 2
  let pe := WATER_BALLOON_MASS * EARTH_GRAVITY * p.y
  { time := p.time, velocity := v, ke := ke, pe := pe, me := ke + pe,
    momentum := WATER_BALLOON_MASS * v }

/-- The `Charts` component's data path: render nothing for a missing or empty
trajectory, otherwise keep only points with `y ≥ 0` and derive the rows. -/
noncomputable def chartsRender (data : Option (List TPr)) : Option (List ChartRow) :=
  match data with
  | none => none
  | some l =>
    if l.length = 0 then none
    else some ((l.filter (fun p => decide (0 ≤ p.y))).map mkChartRow)

/-- The `TelemetryPanel` component's data path (`Scene.tsx` part of the
bundle, lines 83–100): identical filtering and derivation. -/
noncomputable def telemetryRender (trajectory : Option (List TPr)) : Option (List ChartRow) :=
  match trajectory with
  | none => none
  | some l =>
    if l.length = 0 then none
    else some ((l.filter (fun p => decide (0 ≤ p.y))).map mkChartRow)

/-! ## Unfolding and helper lemmas for the integrator -/

theorem integLoop_zero (ph : Phys) (lvl : Int) (s : RState) (acc : List TP) :
    integLoop ph lvl 0 s acc = .diverged := rfl

theorem integLoop_succ (ph : Phys) (lvl : Int) (fuel : Nat) (s : RState) (acc : List TP) :
    integLoop ph lvl (fuel + 1) s acc =
      if runawayCond (rk4 ph s) then .diverged
      else if stopCond lvl (rk4 ph s) then
        .landed ((impactPt lvl s (rk4 ph s)) :: acc).reverse (impactPt lvl s (rk4 ph s))
      else integLoop ph lvl fuel (rk4 ph s) (toTP (rk4 ph s) :: acc) := rfl

theorem rk4_t (ph : Phys) (s : RState) : (rk4 ph s).t = s.t + dtFx := rfl

theorem toTP_y (s : RState) : (toTP s).y = s.p.y := rfl

theorem toTP_time (s : RState) : (toTP s).time = s.t := rfl

theorem dtFx_pos : (0 : Int) < dtFx := by decide

/-- A non-stopped state is at or above the ground. -/
theorem stopCond_false_y {lvl : Int} {s : RState} (h : stopCond lvl s = false) :
    0 ≤ s.p.y := by
  simp only [stopCond, Bool.or_eq_false_iff, decide_eq_false_iff_not] at h
  omega

/-- The impact sample's time is strictly after the previous sample's time. -/
theorem impactPt_time_lt (lvl : Int) (s s2 : RState) : s.t < (impactPt lvl s s2).time := by
  unfold impactPt
  split
  · have h1 : (1 : Int) ≤ max (fmul (if s.p.y - s2.p.y ≤ 0 then 0
        else fdiv (s.p.y - lvl) (s.p.y - s2.p.y)) dtFx) 1 := le_max_right _ 1
    simp only
    omega
  · have := dtFx_pos
    simp only
    omega

/-- The impact sample's height: exactly the termination level when the
previous sample was at or above it, otherwise clamped nonnegative (possible
only for a strictly positive level). -/
theorem impactPt_y (lvl : Int) (s s2 : RState) (hlvl : 0 ≤ lvl) (hy : 0 ≤ s.p.y) :
    (impactPt lvl s s2).y = lvl ∨ (0 < lvl ∧ 0 ≤ (impactPt lvl s s2).y) := by
  unfold impactPt
  split
  · exact Or.inl rfl
  · refine Or.inr ⟨by omega, ?_⟩
    simp only
    exact le_max_right _ 0

/-- Invariants of a landed integration run, by induction on the fuel: the
emitted samples (accumulated newest-first on top of the current state's
sample) have strictly decreasing times and nonnegative heights, and the run
ends with an impact sample at the termination level. -/
theorem integLoop_landed_spec (ph : Phys) (lvl : Int) (hlvl : 0 ≤ lvl) (p0 : TP) :
    ∀ (fuel : Nat) (s : RState) (rest tr : List TP) (imp : TP),
      (toTP s :: rest).Chain' (fun a b => b.time < a.time) →
      (∀ p ∈ toTP s :: rest, 0 ≤ p.y) →
      (toTP s :: rest).getLast? = some p0 →
      integLoop ph lvl fuel s (toTP s :: rest) = .landed tr imp →
      tr.Chain' (fun a b => a.time < b.time) ∧
      (∀ p ∈ tr, 0 ≤ p.y) ∧
      tr.head? = some p0 ∧
      tr.getLast? = some imp ∧
      rest.length + 2 ≤ tr.length ∧
      (imp.y = lvl ∨ (0 < lvl ∧ 0 ≤ imp.y)) := by
  intro fuel
  induction fuel with
  | zero =>
    intro s rest tr imp _ _ _ h
    rw [integLoop_zero] at h
    exact absurd h (by simp)
  | succ n ih =>
    intro s rest tr imp hchain hy hlast h
    rw [integLoop_succ] at h
    by_cases hrun : runawayCond (rk4 ph s) = true
    · rw [if_pos hrun] at h
      exact absurd h (by simp)
    · rw [if_neg hrun] at h
      by_cases hstop : stopCond lvl (rk4 ph s) = true
      · rw [if_pos hstop] at h
        injection h with h1 h2
        subst h1
        subst h2
        have hsy : 0 ≤ s.p.y := by
          have := hy (toTP s) (List.mem_cons_self _ _)
          rwa [toTP_y] at this
        refine ⟨?_, ?_, ?_, ?_, ?_, ?_⟩
        · rw [List.chain'_reverse]
          refine List.chain'_cons.mpr ⟨?_, hchain⟩
          show (toTP s).time < (impactPt lvl s (rk4 ph s)).time
          rw [toTP_time]
          exact impactPt_time_lt lvl s (rk4 ph s)
        · intro p hp
          rw [List.mem_reverse] at hp
          rcases List.mem_cons.mp hp with hp | hp
          · subst hp
            rcases impactPt_y lvl s (rk4 ph s) hlvl hsy with h | h
            · rw [h]; exact hlvl
            · exact h.2
          · exact hy p hp
        · rw [List.head?_reverse, List.getLast?_cons_cons]
          exact hlast
        · rw [List.getLast?_reverse]
          rfl
        · rw [List.length_reverse]
          simp only [List.length_cons]
          omega
        · exact impactPt_y lvl s (rk4 ph s) hlvl hsy
      · rw [if_neg hstop] at h
        have hchain2 : (toTP (rk4 ph s) :: toTP s :: rest).Chain'
            (fun a b => b.time < a.time) := by
          refine List.chain'_cons.mpr ⟨?_, hchain⟩
          rw [toTP_time, toTP_time, rk4_t]
          have := dtFx_pos
          omega
        have hy2 : ∀ p ∈ toTP (rk4 ph s) :: toTP s :: rest, 0 ≤ p.y := by
          intro p hp
          rcases List.mem_cons.mp hp with hp | hp
          · subst hp
            rw [toTP_y]
            exact stopCond_false_y (Bool.not_eq_true _ ▸ hstop)
          · exact hy p hp
        have hlast2 : (toTP (rk4 ph s) :: toTP s :: rest).getLast? = some p0 := by
          rw [List.getLast?_cons_cons]
          exact hlast
        have hres := ih (rk4 ph s) (toTP s :: rest) tr imp hchain2 hy2 hlast2 h
        refine ⟨hres.1, hres.2.1, hres.2.2.1, hres.2.2.2.1, ?_, hres.2.2.2.2.2⟩
        have := hres.2.2.2.2.1
        simp only [List.length_cons] at this ⊢
        omega

theorem integrate_eq (ph : Phys) (lvl v phi psi : Int) :
    integrate ph lvl v phi psi =
      integLoop ph lvl maxSteps (startState v phi psi) [toTP (startState v phi psi)] := rfl

/-- Invariants of a landed full integration run: strictly increasing times,
nonnegative heights, the launch sample first (at time 0), the impact sample
last (at the termination level), and at least two samples. -/
theorem integrate_landed_spec (ph : Phys) (lvl v phi psi : Int) (hlvl : 0 ≤ lvl)
    (tr : List TP) (imp : TP) (h : integrate ph lvl v phi psi = .landed tr imp) :
    tr.Chain' (fun a b => a.time < b.time) ∧
    (∀ p ∈ tr, 0 ≤ p.y) ∧
    tr.head? = some (toTP (startState v phi psi)) ∧
    (toTP (startState v phi psi)).time = 0 ∧
    tr.getLast? = some imp ∧
    2 ≤ tr.length ∧
    (imp.y = lvl ∨ (0 < lvl ∧ 0 ≤ imp.y)) := by
  rw [integrate_eq] at h
  have hres := integLoop_landed_spec ph lvl hlvl (toTP (startState v phi psi))
    maxSteps (startState v phi psi) [] tr imp
    (List.chain'_singleton _) ?_ rfl h
  · exact ⟨hres.1, hres.2.1, hres.2.2.1, rfl, hres.2.2.2.1,
      by have := hres.2.2.2.2.1; omega, hres.2.2.2.2.2⟩
  · intro p hp
    rcases List.mem_cons.mp hp with hp | hp
    · subst hp
      exact le_of_eq rfl
    · exact absurd hp (List.not_mem_nil p)

/-- A landed run's sample count is bounded by the fuel plus the samples
already emitted: the step-count hard cap bounds every trajectory. -/
theorem integLoop_length_le (ph : Phys) (lvl : Int) :
    ∀ (fuel : Nat) (s : RState) (acc tr : List TP) (imp : TP),
      integLoop ph lvl fuel s acc = .landed tr imp → tr.length ≤ fuel + acc.length := by
  intro fuel
  induction fuel with
  | zero =>
    intro s acc tr imp h
    rw [integLoop_zero] at h
    exact absurd h (by simp)
  | succ n ih =>
    intro s acc tr imp h
    rw [integLoop_succ] at h
    by_cases hrun : runawayCond (rk4 ph s) = true
    · rw [if_pos hrun] at h
      exact absurd h (by simp)
    · rw [if_neg hrun] at h
      by_cases hstop : stopCond lvl (rk4 ph s) = true
      · rw [if_pos hstop] at h
        injection h with h1 _
        subst h1
        rw [List.length_reverse]
        simp only [List.length_cons]
        omega
      · rw [if_neg hstop] at h
        have := ih (rk4 ph s) (toTP (rk4 ph s) :: acc) tr imp h
        simp only [List.length_cons] at this
        omega

/-- Every trajectory an integration can return is bounded by the hard cap. -/
theorem integrate_length_le (ph : Phys) (lvl v phi psi : Int) (tr : List TP) (imp : TP)
    (h : integrate ph lvl v phi psi = .landed tr imp) : tr.length ≤ maxSteps + 1 := by
  rw [integrate_eq] at h
  have := integLoop_length_le ph lvl maxSteps (startState v phi psi) _ tr imp h
  simpa using this

/-! ## Search soundness lemmas -/

/-- A hit returned by the bisection really is a landed, in-tolerance trial at
the searched speed. -/
theorem bisect_sound (c : Ctx) (v : Int) :
    ∀ (fuel : Nat) (lo hi : Int) (n : Nat) (fd : Found),
      bisect c v fuel lo hi = (n, some fd) →
      fd.v = v ∧ evalCand c v fd.phi = .landed fd.tr fd.imp ∧ hitB c fd.imp = true := by
  intro fuel
  induction fuel with
  | zero =>
    intro lo hi n fd h
    simp only [bisect] at h
    exact absurd h (by simp)
  | succ k ih =>
    intro lo hi n fd h
    rw [bisect] at h
    split at h
    · simp at h
    · rename_i tr imp heq
      split at h
      · rename_i hhit
        simp only [Prod.mk.injEq, Option.some.injEq] at h
        rw [← h.2]
        exact ⟨rfl, heq, hhit⟩
      · rename_i hhit
        split at h
        · rcases hb : bisect c v k ((lo + hi) / 2) hi with ⟨n0, r0⟩
          rw [hb] at h
          simp only [Prod.mk.injEq] at h
          rw [h.2] at hb
          exact ih _ _ _ _ hb
        · rcases hb : bisect c v k lo ((lo + hi) / 2) with ⟨n0, r0⟩
          rw [hb] at h
          simp only [Prod.mk.injEq] at h
          rw [h.2] at hb
          exact ih _ _ _ _ hb

/-- A hit returned by the angle search really is a landed, in-tolerance trial
at the searched speed. -/
theorem angleSearch_sound (c : Ctx) (v : Int) (n : Nat) (fd : Found)
    (h : angleSearch c v = (n, some fd)) :
    fd.v = v ∧ evalCand c v fd.phi = .landed fd.tr fd.imp ∧ hitB c fd.imp = true := by
  rw [angleSearch] at h
  split at h
  · simp at h
  · rename_i tr imp heq
    split at h
    · rename_i hhit
      simp only [Prod.mk.injEq, Option.some.injEq] at h
      rw [← h.2]
      exact ⟨rfl, heq, hhit⟩
    · split at h
      · simp at h
      · rcases hb : bisect c v 16 angleLo angleHi with ⟨n0, r0⟩
        rw [hb] at h
        simp only [Prod.mk.injEq] at h
        rw [h.2] at hb
        exact bisect_sound c v _ _ _ _ _ hb

/-- A hit returned by the speed scan is a landed, in-tolerance trial at a
speed from the candidate list, and every earlier candidate speed failed its
angle search — the lowest-v0 tie-break. -/
theorem searchGo_sound (c : Ctx) :
    ∀ (vs : List Int) (n : Nat) (fd : Found),
      searchGo c vs = (n, some fd) →
      ∃ pre post, vs = pre ++ fd.v :: post ∧
        (∀ u ∈ pre, (angleSearch c u).2 = none) ∧
        evalCand c fd.v fd.phi = .landed fd.tr fd.imp ∧ hitB c fd.imp = true := by
  intro vs
  induction vs with
  | nil =>
    intro n fd h
    simp only [searchGo] at h
    exact absurd h (by simp)
  | cons v vs ih =>
    intro n fd h
    rw [searchGo] at h
    split at h
    · rename_i m fd0 hA
      simp only [Prod.mk.injEq, Option.some.injEq] at h
      rw [← h.2]
      rcases angleSearch_sound c v m fd0 hA with ⟨hv, hland, hhit⟩
      rw [← hv] at hland
      refine ⟨[], vs, ?_, ?_, hland, hhit⟩
      · rw [hv]
        rfl
      · intro u hu
        exact absurd hu (List.not_mem_nil u)
    · rename_i m hA
      rcases hS : searchGo c vs with ⟨m2, r2⟩
      rw [hS] at h
      simp only [Prod.mk.injEq] at h
      rw [h.2] at hS
      rcases ih _ _ hS with ⟨pre, post, hsplit, hpre, hland, hhit⟩
      refine ⟨v :: pre, post, ?_, ?_, hland, hhit⟩
      · rw [hsplit]
        rfl
      · intro u hu
        rcases List.mem_cons.mp hu with hu | hu
        · subst hu
          rw [hA]
        · exact hpre u hu

/-! ## Solve characterization lemmas -/

/-- An invalid request is rejected immediately: fixed failure response and
zero integrator calls. -/
theorem solve_invalid_char (r : Req) (hb : invalidB r = true) :
    solve r = ⟨0, 0, 0, 0, [], .invalidInput, "invalid input"⟩ ∧ trialsOf r = 0 := by
  unfold solve trialsOf solveC
  rw [if_pos hb]
  exact ⟨rfl, rfl⟩

/-- A valid request whose speed scan finds a hit is assembled into the
success response from that hit. -/
theorem solve_found_char (r : Req) (hb : invalidB r = false) (n : Nat) (fd : Found)
    (hs : searchGo (mkCtx r) (vGridOf r) = (n, some fd)) :
    solve r = ⟨fd.phi, (mkCtx r).psi, fd.v, velocityToPullbackFx r.k fd.v, fd.tr,
      .success, ""⟩ := by
  unfold solve solveC
  rw [if_neg (by simp [hb]), hs]

/-- A valid request whose speed scan finds no hit is reported unreachable,
with an empty trajectory and a human-readable reason. -/
theorem solve_unreachable_char (r : Req) (hb : invalidB r = false)
    (hs : (searchGo (mkCtx r) (vGridOf r)).2 = none) :
    (solve r).status = .unreachable ∧ (solve r).trajectory = [] ∧
    (solve r).reason = "target unreachable" := by
  unfold solve solveC
  rw [if_neg (by simp [hb])]
  have hpair : searchGo (mkCtx r) (vGridOf r) =
      ((searchGo (mkCtx r) (vGridOf r)).1, none) := by
    rw [← hs]
  rw [hpair]
  exact ⟨rfl, rfl, rfl⟩

/-- A successful solve comes from a hit of the speed scan, and the response
is assembled from that hit. -/
theorem solve_success_char (r : Req) (h : (solve r).status = .success) :
    invalidB r = false ∧
    ∃ n fd, searchGo (mkCtx r) (vGridOf r) = (n, some fd) ∧
      solve r = ⟨fd.phi, (mkCtx r).psi, fd.v, velocityToPullbackFx r.k fd.v, fd.tr,
        .success, ""⟩ := by
  by_cases hb : invalidB r = true
  · rw [(solve_invalid_char r hb).1] at h
    exact absurd h (by simp)
  · rw [Bool.not_eq_true] at hb
    rcases hfind : (searchGo (mkCtx r) (vGridOf r)).2 with _ | fd
    · rw [(solve_unreachable_char r hb hfind).1] at h
      exact absurd h (by simp)
    · have hs : searchGo (mkCtx r) (vGridOf r) =
          ((searchGo (mkCtx r) (vGridOf r)).1, some fd) := by
        rw [← hfind]
      exact ⟨hb, _, fd, hs, solve_found_char r hb _ fd hs⟩

/-- The InvalidInput status appears exactly for invalid requests. -/
theorem status_invalid_iff (r : Req) :
    (solve r).status = .invalidInput ↔ invalidB r = true := by
  constructor
  · intro h
    by_contra hb
    rw [Bool.not_eq_true] at hb
    rcases hfind : (searchGo (mkCtx r) (vGridOf r)).2 with _ | fd
    · rw [(solve_unreachable_char r hb hfind).1] at h
      exact absurd h (by simp)
    · have hs : searchGo (mkCtx r) (vGridOf r) =
          ((searchGo (mkCtx r) (vGridOf r)).1, some fd) := by
        rw [← hfind]
      rw [solve_found_char r hb _ fd hs] at h
      exact absurd h (by simp)
  · intro hb
    rw [(solve_invalid_char r hb).1]

/-- The invalid-input flag spelled out as the spec's conditions. -/
theorem invalidB_iff (r : Req) :
    invalidB r = true ↔
      (r.k ≤ 0 ∨ r.wind < 0 ∨ r.rho ≤ 0 ∨ (r.tx = 0 ∧ r.tz = 0)) := by
  simp only [invalidB, Bool.or_eq_true, Bool.and_eq_true, decide_eq_true_eq]
  tauto

/-! ## Candidate-grid lemmas -/

/-- Every candidate speed lies in the achievable band
`[vstepFx, vmaxOf k]`. -/
theorem vGrid_mem_le (tx ty tz k u : Int) (hu : u ∈ vGrid tx ty tz k) :
    vstepFx ≤ u ∧ u ≤ vmaxOf k := by
  simp only [vGrid, List.mem_filter, List.mem_map, decide_eq_true_eq] at hu
  rcases hu with ⟨⟨i, _, hiu⟩, hle⟩
  refine ⟨?_, hle⟩
  have h1 : vstepFx ≤ max vstepFx ((vLowGuess tx ty tz / vstepFx - 2) * vstepFx) :=
    le_max_left _ _
  have h2 : (0 : Int) ≤ Int.ofNat i * vstepFx :=
    mul_nonneg (Int.ofNat_nonneg i) (by decide)
  omega

/-- The candidate speed ladder is strictly increasing. -/
theorem vGrid_sorted (tx ty tz k : Int) : (vGrid tx ty tz k).Pairwise (· < ·) := by
  unfold vGrid
  apply List.Pairwise.filter
  refine List.pairwise_map.mpr ?_
  apply List.Pairwise.imp ?_ (List.pairwise_lt_range _)
  intro a b hab
  have hm : (Int.ofNat a) * vstepFx < (Int.ofNat b) * vstepFx := by
    apply mul_lt_mul_of_pos_right
    · exact Int.ofNat_lt.mpr hab
    · decide
  omega

/-- In a strictly sorted list split around `w`, every element below `w` lies
in the prefix. -/
theorem mem_pre_of_lt (vs pre post : List Int) (w : Int) (hsplit : vs = pre ++ w :: post)
    (hsort : vs.Pairwise (· < ·)) (u : Int) (hu : u ∈ vs) (hlt : u < w) : u ∈ pre := by
  subst hsplit
  rcases List.mem_append.mp hu with h | h
  · exact h
  · exfalso
    rcases List.pairwise_append.mp hsort with ⟨_, hp2, _⟩
    rcases List.mem_cons.mp h with h | h
    · omega
    · have := (List.pairwise_cons.mp hp2).1 u h
      omega

/-- If every candidate speed's pre-check trial diverges, the scan finds
nothing: diverging trials are excluded, and an all-diverging search fails. -/
theorem searchGo_all_diverged (c : Ctx) :
    ∀ vs : List Int, (∀ v ∈ vs, evalCand c v angleLo = .diverged) →
      (searchGo c vs).2 = none := by
  intro vs
  induction vs with
  | nil => intro _; rfl
  | cons v vs ih =>
    intro hall
    rw [searchGo]
    have hA : angleSearch c v = (1, none) := by
      rw [angleSearch, hall v (List.mem_cons_self _ _)]
    rw [hA]
    rcases hS : searchGo c vs with ⟨m, r2⟩
    have : r2 = none := by
      have := ih (fun u hu => hall u (List.mem_cons_of_mem _ hu))
      rwa [hS] at this
    rw [this]

/-! ## Claim theorems -/

/-- C1.  Landing accuracy: for every solve that returns status success,
re-running the integrator with the returned launch vector (velocity,
launch angle, azimuth) in the same environment reproduces exactly the
returned trajectory, and its final (impact) point matches the requested
target's x and z within the landing tolerance — and its height matches
target.y within tolerance whenever target.y is nonzero. -/
theorem solve_success_landing_accuracy (r : Req) (h : (solve r).status = .success) :
    ∃ imp,
      integrate (mkPhys r) (max r.ty 0) ((solve r).velocity) ((solve r).launch_angle)
          ((solve r).azimuth_angle) = .landed ((solve r).trajectory) imp ∧
      ((solve r).trajectory).getLast? = some imp ∧
      |imp.x - r.tx| ≤ tolFx ∧ |imp.z - r.tz| ≤ tolFx ∧
      (r.ty ≠ 0 → |imp.y - r.ty| ≤ tolFx) := by
  rcases solve_success_char r h with ⟨hb, n, fd, hs, hresp⟩
  rcases searchGo_sound _ _ n fd hs with ⟨pre, post, hsplit, hpre, hland, hhit⟩
  simp only [evalCand, mkCtx] at hland
  simp only [hitB, mkCtx, Bool.and_eq_true, decide_eq_true_eq] at hhit
  have hspec := integrate_landed_spec (mkPhys r) (max r.ty 0) fd.v fd.phi
    (atan2Fx r.tz r.tx) (le_max_right _ _) fd.tr fd.imp hland
  rw [hresp]
  exact ⟨fd.imp, hland, hspec.2.2.2.2.1, hhit.1.1, hhit.1.2, fun _ => hhit.2⟩

/-- C2 (amended).  Trajectory invariants of every successful solve: strictly
increasing time values starting at 0, no point below the ground, at least two
points, and the final point at the target's height within tolerance — exactly
at ground level when the target height is at most 0, but at the target's own
height level (not y = 0) for elevated targets. -/
theorem solve_success_trajectory_invariants (r : Req) (h : (solve r).status = .success) :
    ((solve r).trajectory).Chain' (fun a b => a.time < b.time) ∧
    (∀ p ∈ (solve r).trajectory, 0 ≤ p.y) ∧
    (∃ h0, ((solve r).trajectory).head? = some h0 ∧ h0.time = 0) ∧
    (∃ last, ((solve r).trajectory).getLast? = some last ∧
      |last.y - r.ty| ≤ tolFx ∧ (r.ty ≤ 0 → last.y = 0)) ∧
    2 ≤ ((solve r).trajectory).length := by
  rcases solve_success_char r h with ⟨hb, n, fd, hs, hresp⟩
  rcases searchGo_sound _ _ n fd hs with ⟨pre, post, hsplit, hpre, hland, hhit⟩
  simp only [evalCand, mkCtx] at hland
  simp only [hitB, mkCtx, Bool.and_eq_true, decide_eq_true_eq] at hhit
  have hspec := integrate_landed_spec (mkPhys r) (max r.ty 0) fd.v fd.phi
    (atan2Fx r.tz r.tx) (le_max_right _ _) fd.tr fd.imp hland
  rw [hresp]
  refine ⟨hspec.1, hspec.2.1, ⟨_, hspec.2.2.1, hspec.2.2.2.1⟩, ⟨fd.imp, hspec.2.2.2.2.1,
    hhit.2, ?_⟩, hspec.2.2.2.2.2.1⟩
  intro hty
  rcases hspec.2.2.2.2.2.2 with hy | hy
  · rw [hy]
    exact max_eq_right hty
  · exfalso
    have : max r.ty 0 = 0 := max_eq_right hty
    omega

/-- C3.  LauncherModel energy round-trip: `velocity_to_pullback k v0` is
`v0 * sqrt(m / k)`, and recomputing the speed from that pullback via the
forward energy formula `0.5 k pullback² = 0.5 m v²` recovers v0 exactly, for
every k > 0 and v0 > 0. -/
theorem velocity_pullback_roundtrip (k v0 : ℝ) (hk : 0 < k) (hv : 0 < v0) :
    velocity_to_pullback k v0 = v0 * Real.sqrt (WATER_BALLOON_MASS / k) ∧
    pullback_to_velocity k (velocity_to_pullback k v0) = v0 := by
  refine ⟨rfl, ?_⟩
  have hM : (0 : ℝ) < WATER_BALLOON_MASS := by norm_num [WATER_BALLOON_MASS]
  unfold pullback_to_velocity velocity_to_pullback
  rw [mul_pow, Real.sq_sqrt (le_of_lt (div_pos hM hk))]
  have hrw : k * (v0 ^ 2 * (WATER_BALLOON_MASS / k)) / WATER_BALLOON_MASS = v0 ^ 2 := by
    field_simp
  rw [hrw, Real.sqrt_sq hv.le]

/-- C4.  InvalidInput characterization: a solve reports InvalidInput exactly
when the spring constant is non-positive, the wind speed negative, the air
density non-positive, or the target at zero horizontal distance — and then it
runs no integration at all (zero integrator calls, empty trajectory). -/
theorem invalid_input_characterization (r : Req) :
    ((solve r).status = .invalidInput ↔
      (r.k ≤ 0 ∨ r.wind < 0 ∨ r.rho ≤ 0 ∨ (r.tx = 0 ∧ r.tz = 0))) ∧
    ((solve r).status = .invalidInput → trialsOf r = 0 ∧ (solve r).trajectory = []) := by
  constructor
  · rw [status_invalid_iff]
    exact invalidB_iff r
  · intro h
    have hb := (status_invalid_iff r).mp h
    rcases solve_invalid_char r hb with ⟨he, ht⟩
    rw [he]
    exact ⟨ht, rfl⟩

/-- C6.  Integration divergence policy: every integration either diverges
(the hard cap) or lands with a trajectory bounded by the cap; a successful
solve's accepted trial really landed (a diverged trial is never accepted);
a scan all of whose pre-check trials diverge finds nothing; and a valid
request whose scan finds nothing is reported Unreachable. -/
theorem integration_divergence_policy :
    (∀ (ph : Phys) (lvl v phi psi : Int),
      integrate ph lvl v phi psi = .diverged ∨
      ∃ tr imp, integrate ph lvl v phi psi = .landed tr imp ∧ tr.length ≤ maxSteps + 1) ∧
    (∀ r : Req, (solve r).status = .success →
      ∃ imp, evalCand (mkCtx r) ((solve r).velocity) ((solve r).launch_angle) =
        .landed ((solve r).trajectory) imp) ∧
    (∀ (c : Ctx) (vs : List Int), (∀ v ∈ vs, evalCand c v angleLo = .diverged) →
      (searchGo c vs).2 = none) ∧
    (∀ r : Req, invalidB r = false → (searchGo (mkCtx r) (vGridOf r)).2 = none →
      (solve r).status = .unreachable) := by
  refine ⟨?_, ?_, ?_, ?_⟩
  · intro ph lvl v phi psi
    rcases hI : integrate ph lvl v phi psi with _ | ⟨tr, imp⟩
    · exact Or.inl rfl
    · exact Or.inr ⟨tr, imp, rfl, integrate_length_le ph lvl v phi psi tr imp hI⟩
  · intro r h
    rcases solve_success_char r h with ⟨hb, n, fd, hs, hresp⟩
    rcases searchGo_sound _ _ n fd hs with ⟨_, _, _, _, hland, _⟩
    rw [hresp]
    exact ⟨fd.imp, hland⟩
  · exact searchGo_all_diverged
  · intro r hb hs
    exact (solve_unreachable_char r hb hs).1

/-- C7.  EnvironmentModel derivations: for any wind speed w ≥ 0 and direction
th in degrees, the derived wind vector is `w * (cos th, 0, sin th)` with th
converted to radians — in particular its vertical component is 0 — and the
drag factor is `0.5 * air_density * drag_coefficient * A_ref / m` for the
fixed projectile constants. -/
theorem wind_vector_drag_factor (w th rho cd : ℝ) (hw : 0 ≤ w) :
    wind_vector w th =
      (w * Real.cos (th * Real.pi / 180), 0, w * Real.sin (th * Real.pi / 180)) ∧
    (wind_vector w th).2.1 = 0 ∧
    drag_factor rho cd = 0.5 * rho * cd * A_ref / WATER_BALLOON_MASS :=
  ⟨rfl, rfl, rfl⟩

/-- C8.  Determinism and the lowest-v0 tie-break: the solve is a pure
function of the request (identical inputs give identical responses), and on
success the returned speed is minimal — every strictly smaller candidate
speed of the grid fails its angle search. -/
theorem solve_deterministic_lowest_velocity :
    (∀ r1 r2 : Req, r1 = r2 → solve r1 = solve r2) ∧
    (∀ r : Req, (solve r).status = .success →
      ∀ u ∈ vGridOf r, u < (solve r).velocity →
        (angleSearch (mkCtx r) u).2 = none) := by
  refine ⟨fun r1 r2 h => h ▸ rfl, ?_⟩
  intro r h u hu hlt
  rcases solve_success_char r h with ⟨hb, n, fd, hs, hresp⟩
  rcases searchGo_sound _ _ n fd hs with ⟨pre, post, hsplit, hpre, _, _⟩
  have hlt' : u < fd.v := by
    rw [hresp] at hlt
    exact hlt
  exact hpre u (mem_pre_of_lt (vGridOf r) pre post fd.v hsplit
    (vGrid_sorted r.tx r.ty r.tz r.k) u hu hlt')

/-- C10.  Display components: Charts and TelemetryPanel render nothing for a
missing or empty trajectory; otherwise every displayed row is derived from
the points with y ≥ 0 only, with speed `sqrt(vx² + vy² + vz²)`, kinetic
energy `0.5 m v²`, potential energy `m g y`, total mechanical energy their
sum, and momentum `m v`, for the fixed constants of `constants.ts`. -/
theorem charts_telemetry_render :
    (chartsRender none = none ∧ chartsRender (some []) = none ∧
      telemetryRender none = none ∧ telemetryRender (some []) = none) ∧
    (∀ l : List TPr, l ≠ [] →
      chartsRender (some l) =
        some ((l.filter (fun p => decide (0 ≤ p.y))).map mkChartRow) ∧
      telemetryRender (some l) = chartsRender (some l)) ∧
    (∀ (l : List TPr) (p : TPr), p ∈ l.filter (fun p => decide (0 ≤ p.y)) → 0 ≤ p.y) ∧
    (∀ p : TPr,
      (mkChartRow p).velocity = Real.sqrt (p.vx ^ 2 + p.vy ^ 2 + p.vz ^ 2) ∧
      (mkChartRow p).ke = 0.5 * WATER_BALLOON_MASS * (mkChartRow p).velocity ^ 2 ∧
      (mkChartRow p).pe = WATER_BALLOON_MASS * EARTH_GRAVITY * p.y ∧
      (mkChartRow p).me = (mkChartRow p).ke + (mkChartRow p).pe ∧
      (mkChartRow p).momentum = WATER_BALLOON_MASS * (mkChartRow p).velocity) := by
  refine ⟨⟨rfl, rfl, rfl, rfl⟩, ?_, ?_, ?_⟩
  · intro l hl
    constructor
    · simp only [chartsRender]
      rw [if_neg (by simpa using hl)]
    · rfl
  · intro l p hp
    exact of_decide_eq_true (List.mem_filter.mp hp).2
  · intro p
    exact ⟨rfl, rfl, rfl, rfl, rfl⟩

set_option maxRecDepth 100000
set_option maxHeartbeats 1000000000

/-- C5.  Unreachable reporting: a valid request whose bounded search meets no
tolerance is answered with the structured Unreachable status and an empty
trajectory (never a crash); any accepted speed lies within the achievable
band `[v_min, v_max]` derived from the spring constant; and in particular the
spec's example — target (10000, 0, 0) with spring constant 10 — yields
Unreachable with an empty trajectory. -/
theorem unreachable_reporting :
    (∀ r : Req, invalidB r = false → (searchGo (mkCtx r) (vGridOf r)).2 = none →
      (solve r).status = .unreachable ∧ (solve r).trajectory = []) ∧
    (∀ r : Req, (solve r).status = .success →
      vstepFx ≤ (solve r).velocity ∧ (solve r).velocity ≤ vmaxOf r.k) ∧
    ((solve req10000).status = .unreachable ∧ (solve req10000).trajectory = []) := by
  refine ⟨?_, ?_, ?_⟩
  · intro r hb hs
    exact ⟨(solve_unreachable_char r hb hs).1, (solve_unreachable_char r hb hs).2.1⟩
  · intro r h
    rcases solve_success_char r h with ⟨hb, n, fd, hsg, hresp⟩
    rcases searchGo_sound _ _ n fd hsg with ⟨pre, post, hsplit, _, _, _⟩
    have hmem : fd.v ∈ vGridOf r := by
      rw [hsplit]
      exact List.mem_append_right _ (List.mem_cons_self _ _)
    have hband := vGrid_mem_le r.tx r.ty r.tz r.k fd.v hmem
    rw [hresp]
    exact hband
  · exact ⟨by decide, by decide⟩

/-- C9.  The spec's example scenario, which is exactly the frontend's default
control-panel state — target (10, 0, 0), spring constant 100, no wind, air
density 1.225, drag coefficient 0.47 — solves successfully with azimuth 0°,
launch angle within [20°, 70°], and a trajectory ending at x ≈ 10, z ≈ 0,
y ≈ 0 (within the landing tolerance). -/
theorem example_scenario_target10 :
    resp9.status = .success ∧
    resp9.azimuth_angle = 0 ∧
    20000000 ≤ resp9.launch_angle ∧ resp9.launch_angle ≤ 70000000 ∧
    resp9.trajectory ≠ [] ∧
    |(lastPt resp9.trajectory).x - req9.tx| ≤ tolFx ∧
    |(lastPt resp9.trajectory).z| ≤ tolFx ∧
    (lastPt resp9.trajectory).y = 0 := by
  refine ⟨by decide, by decide, by decide, by decide, by decide, by decide, by decide,
    by decide⟩

/-- Counterexample to the claim that every returned trajectory ends at
y ≈ 0: the elevated-target request (6, 2, 0) solves successfully, yet its
returned trajectory's final point has height 2 m — the target's level, well
beyond the 0.1 m landing tolerance away from the ground. -/
theorem trajectory_last_not_ground_counterexample :
    (solve reqElev).status = .success ∧ (solve reqElev).trajectory ≠ [] ∧
    tolFx < |(lastPt ((solve reqElev).trajectory)).y| := by
  refine ⟨by decide, by decide, by decide⟩

/-- Witness: C1 instantiated at the elevated-target scenario. -/
theorem solve_success_landing_accuracy_witness :
    (solve reqElev).status = .success ∧
    (∃ imp,
      integrate (mkPhys reqElev) (max reqElev.ty 0) ((solve reqElev).velocity)
          ((solve reqElev).launch_angle) ((solve reqElev).azimuth_angle) =
        .landed ((solve reqElev).trajectory) imp ∧
      ((solve reqElev).trajectory).getLast? = some imp ∧
      |imp.x - reqElev.tx| ≤ tolFx ∧ |imp.z - reqElev.tz| ≤ tolFx ∧
      (reqElev.ty ≠ 0 → |imp.y - reqElev.ty| ≤ tolFx)) :=
  ⟨by decide, solve_success_landing_accuracy reqElev (by decide)⟩

/-- Witness: the amended C2 instantiated at the elevated-target scenario. -/
theorem solve_success_trajectory_invariants_witness :
    (solve reqElev).status = .success ∧
    (((solve reqElev).trajectory).Chain' (fun a b => a.time < b.time) ∧
      (∀ p ∈ (solve reqElev).trajectory, 0 ≤ p.y) ∧
      (∃ h0, ((solve reqElev).trajectory).head? = some h0 ∧ h0.time = 0) ∧
      (∃ last, ((solve reqElev).trajectory).getLast? = some last ∧
        |last.y - reqElev.ty| ≤ tolFx ∧ (reqElev.ty ≤ 0 → last.y = 0)) ∧
      2 ≤ ((solve reqElev).trajectory).length) :=
  ⟨by decide, solve_success_trajectory_invariants reqElev (by decide)⟩

/-- Witness: C3 instantiated at spring constant 2 and speed 3. -/
theorem velocity_pullback_roundtrip_witness :
    (0 : ℝ) < 2 ∧ (0 : ℝ) < 3 ∧
    pullback_to_velocity 2 (velocity_to_pullback 2 3) = 3 :=
  ⟨by norm_num, by norm_num,
   (velocity_pullback_roundtrip 2 3 (by norm_num) (by norm_num)).2⟩

/-- Witness: C4 instantiated at the negative-spring-constant request. -/
theorem invalid_input_characterization_witness :
    (solve reqBad).status = .invalidInput ∧ trialsOf reqBad = 0 := by
  have h1 : (solve reqBad).status = .invalidInput :=
    (invalid_input_characterization reqBad).1.mpr (Or.inl (by decide))
  exact ⟨h1, ((invalid_input_characterization reqBad).2 h1).1⟩

/-- Witness: C5's general clauses instantiated at the spec's failure example
and at the elevated-target success. -/
theorem unreachable_reporting_witness :
    ((solve req10000).status = .unreachable ∧ (solve req10000).trajectory = []) ∧
    (vstepFx ≤ (solve reqElev).velocity ∧ (solve reqElev).velocity ≤ vmaxOf reqElev.k) :=
  ⟨unreachable_reporting.1 req10000 (by decide) (by decide),
   unreachable_reporting.2.1 reqElev (by decide)⟩

/-- Witness: C6's clauses instantiated — the accepted trial of the
elevated-target success landed, a one-candidate scan whose only trial
diverges finds nothing, and the out-of-range example is Unreachable. -/
theorem integration_divergence_policy_witness :
    (∃ imp, evalCand (mkCtx reqElev) ((solve reqElev).velocity)
        ((solve reqElev).launch_angle) = .landed ((solve reqElev).trajectory) imp) ∧
    evalCand ctxDiv divergeV angleLo = .diverged ∧
    (searchGo ctxDiv [divergeV]).2 = none ∧
    (solve req10000).status = .unreachable := by
  refine ⟨integration_divergence_policy.2.1 reqElev (by decide), by decide, ?_, ?_⟩
  · refine integration_divergence_policy.2.2.1 ctxDiv [divergeV] ?_
    intro v hv
    rw [List.mem_singleton] at hv
    subst hv
    decide
  · exact integration_divergence_policy.2.2.2 req10000 (by decide) (by decide)

/-- Witness: C7 instantiated at wind 5 m/s from 90°, standard air. -/
theorem wind_vector_drag_factor_witness :
    (wind_vector 5 90).2.1 = 0 ∧
    drag_factor 1.225 0.47 = 0.5 * 1.225 * 0.47 * A_ref / WATER_BALLOON_MASS :=
  ⟨(wind_vector_drag_factor 5 90 1.225 0.47 (by norm_num)).2.1,
   (wind_vector_drag_factor 5 90 1.225 0.47 (by norm_num)).2.2⟩

/-- Witness: C8's clauses instantiated — determinism at the example request,
and minimality at the elevated-target success for the grid's first speed. -/
theorem solve_deterministic_lowest_velocity_witness :
    solve req9 = solve req9 ∧
    (8500000 : Int) ∈ vGridOf reqElev ∧
    (8500000 : Int) < (solve reqElev).velocity ∧
    (angleSearch (mkCtx reqElev) 8500000).2 = none :=
  ⟨solve_deterministic_lowest_velocity.1 req9 req9 rfl, by decide, by decide,
   solve_deterministic_lowest_velocity.2 reqElev (by decide) 8500000 (by decide) (by decide)⟩

/-- Witness: C10 instantiated at a one-point trajectory. -/
theorem charts_telemetry_render_witness :
    chartsRender (some [⟨1, 2, 3, 4, 5, 6, 7⟩]) =
      some ((([⟨1, 2, 3, 4, 5, 6, 7⟩] : List TPr).filter
        (fun p => decide (0 ≤ p.y))).map mkChartRow) :=
  (charts_telemetry_render.2.1 [⟨1, 2, 3, 4, 5, 6, 7⟩] (by simp)).1
